import Mathlib

/-!
# Verification of the advisory-pipeline logic (`advisor_logic.py`)

A shallow embedding of the advisory pipeline: metrics recording, the
generative-backend client with bounded retries, evidence cards, specialist
professors, the local knowledge-base search, the router, the planner, the
evidence gatherer, the synthesizer and the OODA orchestrator.

Modelling conventions:
* Machine floats (confidence values, temperatures) are modelled as exact
  rationals; the clamping and comparisons performed by the code are exact
  on these values, so no rounding behaviour is lost.
* Real time (timestamps on log events, retry sleeps) is dropped: a logged
  event is modelled by its message.  Claims only count events.
* The external text-generation service is an oracle `Env.backend`,
  indexed by a global attempt counter (`World.tick`) and given the prompt;
  an attempt either yields the text of the `response` field or fails.
* `json.loads` is external library code; it is modelled by the oracle
  `Env.parse` (`none` = parse error, list entries `none` = non-dict values).
* Exceptions raised by the runtime inside a `try` block that the embedded
  code cannot itself produce (I/O errors from printing, conversion errors)
  are modelled by fault oracles (`Env.analyzeFault`, `Env.synthFault`,
  `Env.oodaFault`); a fault makes the corresponding `except` branch run.
-/

/-- Python `needle` is a leading segment of `hay` (char-list version). -/
def leadsChars : List Char → List Char → Bool
  | [], _ => true
  | _ :: _, [] => false
  | a :: as, b :: bs => a == b && leadsChars as bs

/-- `needle` occurs contiguously somewhere in `hay` (char-list version). -/
def containsChars (needle : List Char) : List Char → Bool
  | [] => leadsChars needle []
  | c :: rest => leadsChars needle (c :: rest) || containsChars needle rest

/-- Python's substring test `needle in hay`. -/
def strContains (hay needle : String) : Bool :=
  containsChars needle.toList hay.toList

/-- Python `s.lower()` (character-wise case mapping). -/
def pyLower (s : String) : String := String.mk (s.toList.map Char.toLower)

/-- Python `s.strip()`: drop leading and trailing whitespace. -/
def pyStrip (s : String) : String :=
  String.mk (((s.toList.dropWhile Char.isWhitespace).reverse.dropWhile Char.isWhitespace).reverse)

/-- Python `s.startswith(p)`. -/
def strStarts (s p : String) : Bool := leadsChars p.toList s.toList

/-- Python `s.endswith(p)`. -/
def strEnds (s p : String) : Bool := leadsChars p.toList.reverse s.toList.reverse

/-- Python `s.split('\n')` on a character list (keeps empty pieces). -/
def splitNlAux : List Char → List (List Char)
  | [] => [[]]
  | c :: rest =>
    if c == '\n' then [] :: splitNlAux rest
    else
      match splitNlAux rest with
      | [] => [[c]]
      | h :: t => (c :: h) :: t

/-- Python `s.split('\n')`, the line split used by the synthesizer. -/
def splitNl (s : String) : List String :=
  (splitNlAux s.toList).map (fun cs => String.mk cs)

/-- A word character for the regex `\w`: alphanumeric, underscore, and the
superscript-two that appears in the corpus (alphanumeric for Python's
Unicode-aware `\w`). -/
def isWordChar (c : Char) : Bool :=
  c.isAlphanum || c == '_' || c == '²'

/-- Maximal runs of characters satisfying `p` (a char-by-char scan carrying
the current run, reversed). -/
def tokRuns (p : Char → Bool) : List Char → List Char → List (List Char)
  | [], run => if run.isEmpty then [] else [run.reverse]
  | c :: rest, run =>
    if p c then tokRuns p rest (c :: run)
    else if run.isEmpty then tokRuns p rest []
    else run.reverse :: tokRuns p rest []

/-- `re.findall(r'\w+', s)` as a list of strings: the maximal runs of word
characters. -/
def tokenize (s : String) : List String :=
  (tokRuns isWordChar s.toList []).map (fun cs => String.mk cs)

/-- The whitespace-separated words of a string (maximal runs of
non-whitespace characters), as used by `textwrap.shorten`'s whitespace
collapsing. -/
def wordsOf (s : String) : List String :=
  (tokRuns (fun c => !c.isWhitespace) s.toList []).map (fun cs => String.mk cs)

/-- `estimate_tokens`: word count of the text, at least 1
(`max(1, len(re.findall(r'\b\w+\b', text)))`). -/
def estimate_tokens (text : String) : Nat :=
  max 1 (tokenize text).length

/-- Decimal digits to a natural number. -/
def digitsToNat (ds : List Char) : Nat :=
  ds.foldl (fun n c => 10 * n + (c.toNat - 48)) 0

/-- All bracketed integer citation references `[n]` occurring in a character
stream, in order of occurrence (a measuring function for the citation
invariant, not part of the source). -/
def collectRefs : List Char → List Nat
  | [] => []
  | c :: rest =>
    if c == '[' then
      let ds := rest.takeWhile Char.isDigit
      let rest2 := rest.dropWhile Char.isDigit
      if !ds.isEmpty && rest2.head? == some ']' then
        digitsToNat ds :: collectRefs rest
      else
        collectRefs rest
    else
      collectRefs rest

/-- Number of distinct citation indices referenced in a report string. -/
def distinctRefCount (s : String) : Nat :=
  (collectRefs s.toList).eraseDups.length

/-- One-decimal rendering of a nonnegative rational, standing in for
Python's `f"{x:.1f}"` float formatting (only ever applied to clamped
confidences in `[0,1]`). -/
def fmt1 (q : ℚ) : String :=
  let n := (⌊q * 10 + 1/2⌋).toNat
  toString (n / 10) ++ "." ++ toString (n % 10)

/-- `textwrap.shorten(text, width)`: collapse whitespace runs, and if the
result does not fit in `width`, keep the longest word prefix that fits
together with the placeholder `" [...]"`. -/
def shortenJoin (words : List String) : String :=
  String.intercalate " " words

def shortenFit (width : Nat) : List String → List String
  | [] => []
  | w :: ws =>
    let kept := w :: shortenFit (width - (w.length + 1)) ws
    if (shortenJoin kept).length + " [...]".length ≤ width then kept
    else []

def shorten (text : String) (width : Nat) : String :=
  let words := wordsOf text
  let s := shortenJoin words
  if s.length ≤ width then s
  else shortenJoin (shortenFit width words) ++ " [...]"

-- =========================
-- Metrics & Logging
-- =========================

/-- The `Metrics` dataclass (the real-time `start_time` field is dropped;
events are modelled by their messages, without the timestamp prefix). -/
structure Metrics where
  llm_tokens_in : Nat
  llm_tokens_out : Nat
  tool_calls_search : Nat
  tool_calls_fetch : Nat
  tool_calls_vector : Nat
  cache_hits_search : Nat
  cache_hits_fetch : Nat
  events : List String
  error_count : Nat
deriving Repr, DecidableEq

/-- A fresh `Metrics()` instance. -/
def Metrics.init : Metrics :=
  ⟨0, 0, 0, 0, 0, 0, 0, [], 0⟩

/-- `Metrics.log_event`: append the message to the event log. -/
def Metrics.log_event (m : Metrics) (msg : String) : Metrics :=
  { m with events := m.events ++ [msg] }

/-- `Metrics.log_error`: bump the error counter, then log the event. -/
def Metrics.log_error (m : Metrics) (context err : String) : Metrics :=
  ({ m with error_count := m.error_count + 1 }).log_event
    ("ERROR in " ++ context ++ ": " ++ err)

/-- Mutable world threaded through the pipeline: the process-wide `METRICS`
object plus a global backend-attempt counter used to index the oracle. -/
structure World where
  metrics : Metrics
  tick : Nat
deriving Repr, DecidableEq

def World.init : World := ⟨Metrics.init, 0⟩

def World.logEvent (w : World) (msg : String) : World :=
  { w with metrics := w.metrics.log_event msg }

def World.logError (w : World) (context err : String) : World :=
  { w with metrics := w.metrics.log_error context err }

/-- A structured-data entry parsed from the backend's JSON
(`card_data.get(...)` defaults are applied by the caller). -/
structure CardData where
  claim : Option String
  confidence : Option ℚ
  citations : Option (List Int)
  rationale : Option String

/-- The stage of the OODA loop during which an injected runtime fault
is raised. -/
inductive OodaStage | orient | decide | act
deriving DecidableEq, Repr

/-- The external environment: whether the `requests` library imported, the
text-generation backend (indexed by the global attempt counter and given
the prompt), the JSON parser, and runtime-fault oracles for the three
`try` blocks of the pipeline. -/
structure Env where
  requestsAvailable : Bool
  backend : Nat → String → Except String String
  parse : String → Option (List (Option CardData))
  analyzeFault : Nat → Option String
  synthFault : Option String
  oodaFault : Option (OodaStage × String)

-- =========================
-- LLM Interface
-- =========================

/-- `SYSTEM_CORE`. -/
def SYSTEM_CORE : String :=
  "Be concise, rigorous, evidence-driven. Use citation indices when applicable."

/-- The role-tagged prompt built by `llm_call_async`. -/
def llm_prompt (role content : String) : String :=
  "[SYSTEM]\n" ++ SYSTEM_CORE ++ "\n\n[" ++ role ++ "]\n" ++ content

/-- The retry loop of `llm_call_async`
(`for attempt in range(max_retries)`), structurally recursing over the
remaining attempt indices and threading the world.  On success the
stripped `response` field is returned and the output-token estimate
bumped; on failure an error is logged and, on the final attempt, the
role-tagged fallback string is returned.  When the loop runs out without
returning (only possible with `max_retries = 0`) the code's trailing
`"Error generating response"` is produced.  The `await asyncio.sleep(1)`
between attempts is real time and dropped. -/
def llm_attempts (env : Env) (role prompt : String) (max_retries : Nat) :
    List Nat → World → World × String
  | [], w => (w, "Error generating response")
  | attempt :: rest, w =>
    match env.backend w.tick prompt with
    | .ok raw =>
      let result := pyStrip raw
      ({ w with
          metrics := { w.metrics with
            llm_tokens_out := w.metrics.llm_tokens_out + estimate_tokens result }
          tick := w.tick + 1 },
       result)
    | .error e =>
      let w' := { w.logError ("LLM attempt " ++ toString (attempt + 1)) e with
                    tick := w.tick + 1 }
      if attempt == max_retries - 1 then
        (w', "Fallback response from " ++ role ++ ": Analysis required for given context.")
      else
        llm_attempts env role prompt max_retries rest w'

/-- `llm_call_async(role, content, temperature, max_retries)`.  Without the
`requests` library it returns the mock string immediately; otherwise it
bumps the input-token estimate for the prompt and runs the retry loop.
`temperature` only enters the request payload, which the oracle abstracts. -/
def llm_call_async (env : Env) (role content : String) (_temperature : ℚ)
    (max_retries : Nat) (w : World) : World × String :=
  if !env.requestsAvailable then
    (w, "Mock response from " ++ role ++ ": Technical analysis needed based on provided context.")
  else
    let prompt := llm_prompt role content
    let w := { w with
      metrics := { w.metrics with
        llm_tokens_in := w.metrics.llm_tokens_in + estimate_tokens prompt } }
    llm_attempts env role prompt max_retries (List.range max_retries) w

-- =========================
-- Evidence & Professors
-- =========================

/-- Clamp of the confidence at card creation: `max(0.0, min(1.0, c))`. -/
def clampConf (c : ℚ) : ℚ := max 0 (min 1 c)

/-- `EvidenceCard` (the dict subclass, with the `professor` kwarg always
supplied by the callers). -/
structure EvidenceCard where
  claim : String
  confidence : ℚ
  citations : List Int
  rationale : String
  professor : String
deriving Repr, DecidableEq

/-- The `EvidenceCard` constructor: the confidence is clamped to `[0,1]`
at creation. -/
def EvidenceCard.make (claim : String) (confidence : ℚ) (citations : List Int)
    (rationale : String) (professor : String) : EvidenceCard :=
  ⟨claim, clampConf confidence, citations, rationale, professor⟩

/-- Static descriptor of a specialist professor. -/
structure Professor where
  name : String
  specialty : String
  expertise_keywords : List String
deriving Repr, DecidableEq

def ProfAlgorithms : Professor :=
  ⟨"Prof. Algorithms", "Consensus Algorithms",
   ["raft", "pbft", "consensus", "distributed", "algorithm"]⟩

def ProfSystems : Professor :=
  ⟨"Prof. Systems", "Performance & Systems",
   ["latency", "performance", "system", "network", "throughput"]⟩

def ProfSecurity : Professor :=
  ⟨"Prof. Security", "Byzantine Fault Tolerance",
   ["byzantine", "fault", "security", "tolerance", "adversarial"]⟩

def ProfFinance : Professor :=
  ⟨"Prof. Finance", "Financial Systems",
   ["trading", "financial", "cost", "economic", "market"]⟩

/-- `Advisor.professors`, in declaration order. -/
def professors : List Professor :=
  [ProfAlgorithms, ProfSystems, ProfSecurity, ProfFinance]

/-- The role-specific prompt built by `ProfessorBase.analyze_async`. -/
def analyze_prompt (prof : Professor) (question : String) (snippets : List String) : String :=
  let context := String.intercalate "\n"
    ((snippets.take 3).enum.map (fun p =>
      "[" ++ toString (p.1 + 1) ++ "] " ++ p.2.take 100 ++ "..."))
  "\nQuestion: " ++ question ++ "\nContext: " ++ context ++
  "\n\nAs " ++ prof.name ++ " specializing in " ++ prof.specialty ++
  ", provide 2 evidence cards as JSON:\n[\x7b\"claim\": \"insight 1\", \"confidence\": 0.8, \"citations\": [1], \"rationale\": \"brief reason\"\x7d,\n \x7b\"claim\": \"insight 2\", \"confidence\": 0.7, \"citations\": [1,2], \"rationale\": \"brief reason\"\x7d]\n"

/-- An evidence card built from one parsed dict, with the field defaults of
`analyze_async` applied. -/
def card_of (prof : Professor) (cd : CardData) : EvidenceCard :=
  EvidenceCard.make
    (cd.claim.getD (prof.specialty ++ " analysis needed"))
    (cd.confidence.getD (1/2))
    (cd.citations.getD [1])
    (cd.rationale.getD "Based on evidence")
    prof.name

/-- `ProfessorBase.analyze_async`: query the backend, parse up to two dict
entries into cards (with defaults), fall back to a single placeholder card
when parsing yields nothing, and convert any runtime fault into a single
error-fallback card with confidence 0.3.  The fault oracle is consulted at
entry, modelling an exception anywhere inside the `try` block. -/
def analyze_async (env : Env) (prof : Professor) (question : String)
    (snippets : List String) (w : World) : World × List EvidenceCard :=
  match env.analyzeFault w.tick with
  | some e =>
    (w.logError ("analyze_" ++ prof.name) e,
     [EvidenceCard.make (prof.specialty ++ " analysis needed") (3/10) [1]
        "Error fallback" prof.name])
  | none =>
    let r := llm_call_async env prof.name (analyze_prompt prof question snippets)
              (2/10) 3 w
    let raw := r.2
    let cards_data : List (Option CardData) :=
      if strStarts raw "[" then (env.parse raw).getD [] else []
    let cards := ((cards_data.take 2).filterMap id).map (card_of prof)
    let cards :=
      if cards.isEmpty then
        [EvidenceCard.make (prof.specialty ++ " considerations required") (1/2) [1]
          "Fallback guidance" prof.name]
      else cards
    (r.1, cards)

-- =========================
-- Simple MCP Server
-- =========================

/-- One knowledge-base entry. -/
structure KbEntry where
  id : String
  text : String
deriving Repr, DecidableEq

/-- The fixed three-entry corpus of `SimpleMCPServer`. -/
def kb : List KbEntry :=
  [⟨"raft_consensus",
    "Raft is a consensus algorithm designed for understandability. It provides fault tolerance for distributed systems by electing a leader and replicating log entries. Raft assumes non-Byzantine faults and focuses on partition tolerance and consistency."⟩,
   ⟨"pbft_consensus",
    "Practical Byzantine Fault Tolerance (PBFT) is a consensus algorithm that can handle Byzantine faults, including malicious nodes. PBFT requires 3f+1 nodes to tolerate f Byzantine nodes, has O(n²) message complexity, but provides stronger security guarantees than Raft."⟩,
   ⟨"trading_systems",
    "Financial trading systems require sub-millisecond latencies for high-frequency trading. They must handle Byzantine faults due to adversarial environments. Consensus protocols add overhead but are essential for maintaining consistency across distributed trading engines."⟩]

/-- A `search_kb` result dict. -/
structure SearchResult where
  title : String
  snippet : String
  url : String
  score : Nat
deriving Repr, DecidableEq

/-- The keyword-overlap score of `search_kb`:
`len(set(findall(\w+, query.lower())) & set(findall(\w+, text.lower())))`. -/
def overlapScore (query text : String) : Nat :=
  (((tokenize (pyLower query)).eraseDups).filter
    (fun t => (tokenize (pyLower text)).contains t)).length

/-- Stable insertion of `x` into a list sorted descending by `s`: `x` goes
in front of the first element whose key is not larger (so equal keys keep
`x` first, matching Python's stable `sorted(..., reverse=True)`). -/
def insertDesc (s : α → Nat) (x : α) : List α → List α
  | [] => [x]
  | y :: ys => if s x < s y then y :: insertDesc s x ys else x :: y :: ys

/-- Stable descending sort by the key `s`
(Python's `sorted(l, key=s, reverse=True)`). -/
def sortDesc (s : α → Nat) : List α → List α
  | [] => []
  | x :: xs => insertDesc s x (sortDesc s xs)

/-- The positive-scoring corpus entries, in corpus order, as result dicts. -/
def kbCandidates (q : String) : List SearchResult :=
  kb.filterMap (fun item =>
    let score := overlapScore q item.text
    if 0 < score then
      some ⟨item.id, shorten item.text 200, "local://" ++ item.id, score⟩
    else none)

/-- `SimpleMCPServer.search_kb`: positive-scoring entries, sorted
descending by score (stably, so ties keep corpus order), truncated to 3. -/
def search_kb (q : String) : List SearchResult :=
  (sortDesc SearchResult.score (kbCandidates q)).take 3

/-- A mocked external web-search result. -/
structure WebResult where
  title : String
  url : String
  snippet : String
deriving Repr, DecidableEq

/-- `SimpleMCPServer.mock_web_search`. -/
def mock_web_search (query : String) : List WebResult :=
  [⟨"Research on " ++ query,
    "https://example.com/research",
    "Academic research discussing " ++ query ++ " with performance benchmarks and implementation details."⟩]

-- =========================
-- Main Advisor System
-- =========================

/-- The plan dict produced by `Advisor.plan_async`. -/
structure Plan where
  subqs : List String
  budget_tool_calls : Nat
deriving Repr, DecidableEq

/-- `Advisor.plan_async`: trigger terms yield the fixed three-sub-question
decomposition, anything else the original question; truncated to 3. -/
def plan_async (question : String) : Plan :=
  let ql := pyLower question
  let subqs :=
    if strContains ql "consensus" || strContains ql "raft" || strContains ql "pbft" then
      ["Compare Raft and PBFT consensus algorithms",
       "Analyze latency requirements for financial trading systems",
       "Evaluate Byzantine fault tolerance for multi-agent coordination"]
    else [question]
  ⟨subqs.take 3, 2⟩

/-- The expertise score of `Advisor.route_professors`: the number of the
professor's keywords occurring as substrings of the lowercased sub-question. -/
def keywordScore (p : Professor) (subq_lower : String) : Nat :=
  (p.expertise_keywords.filter (fun k => strContains subq_lower k)).length

/-- The `prof_scores` dict of `route_professors`, in insertion (declaration)
order, keyed by professor name, zero scores excluded. -/
def profScores (subq : String) : List (String × Nat) :=
  professors.filterMap (fun p =>
    let s := keywordScore p (pyLower subq)
    if 0 < s then some (p.name, s) else none)

/-- `Advisor.route_professors`: rank positive-scoring professors descending
by score (stable, so ties keep declaration order), with the fixed default
pair when all score zero, and return the top-2 names. -/
def route_professors (subq : String) : List String :=
  let scores := profScores subq
  let scores :=
    if scores.isEmpty then [("Prof. Algorithms", 1), ("Prof. Systems", 1)]
    else scores
  ((sortDesc Prod.snd scores).take 2).map Prod.fst

/-- `Advisor.gather_evidence`: tag the local-search snippets and the first
mocked web result, accumulate locators, bump the tool counters, and
truncate both lists to 3. -/
def gather_evidence (subq : String) (w : World) : World × (List String × List String) :=
  let w1 := w.logEvent ("Gathering evidence for: " ++ subq.take 50 ++ "...")
  let kbr := search_kb subq
  let snippets := kbr.map (fun r => "KB: " ++ r.snippet)
  let citations := kbr.map (fun r => r.url)
  let w2 := { w1 with metrics := { w1.metrics with
    tool_calls_vector := w1.metrics.tool_calls_vector + kbr.length } }
  let webr := (mock_web_search subq).take 1
  let snippets := snippets ++ webr.map (fun r => "WEB: " ++ r.snippet)
  let citations := citations ++ webr.map (fun r => r.url)
  let w3 := { w2 with metrics := { w2.metrics with
    tool_calls_search := w2.metrics.tool_calls_search + webr.length } }
  (w3, (snippets.take 3, citations.take 3))

/-- Run `analyze_async` for each selected professor in order, accumulating
the produced cards. -/
def analyzeAll (env : Env) (subq : String) (snippets : List String) :
    List Professor → World → World × List EvidenceCard
  | [], w => (w, [])
  | p :: ps, w =>
    let r := analyze_async env p subq snippets w
    let rest := analyzeAll env subq snippets ps r.1
    (rest.1, r.2 ++ rest.2)

/-- The loop body of `Advisor.consult_professors` over the sub-questions,
carrying the index (for the log message), the accumulated evidence and the
deduplicated citations. -/
def consultLoop (env : Env) :
    List String → Nat → List EvidenceCard → List String → World →
    World × (List EvidenceCard × List String)
  | [], _, ev, cits, w => (w, (ev, cits))
  | subq :: rest, i, ev, cits, w =>
    let w1 := w.logEvent ("Processing subq " ++ toString (i + 1) ++ ": " ++
                          subq.take 40 ++ "...")
    let g := gather_evidence subq w1
    let cits2 := g.2.2.foldl (fun acc c => if acc.contains c then acc else acc ++ [c]) cits
    let prof_names := route_professors subq
    let selected := professors.filter (fun p => prof_names.contains p.name)
    let a := analyzeAll env subq g.2.1 selected g.1
    consultLoop env rest (i + 1) (ev ++ a.2) cits2 a.1

/-- `Advisor.consult_professors`. -/
def consult_professors (env : Env) (subqs : List String) (w : World) :
    World × (List EvidenceCard × List String) :=
  consultLoop env subqs 0 [] [] w

-- =========================
-- Synthesis & Main Loop
-- =========================

/-- The synthesis prompt of `Synthesizer.synthesize_async`: numbered
citation map over the first 6 citations, bulleted evidence summary over the
first 6 cards. -/
def synth_prompt (question : String) (evidence : List EvidenceCard)
    (citations : List String) : String :=
  let citation_map := String.intercalate "\n"
    ((citations.take 6).enum.map (fun p => "[" ++ toString (p.1 + 1) ++ "] " ++ p.2))
  let evidence_text := String.intercalate "\n"
    ((evidence.take 6).map (fun card =>
      "- " ++ card.claim ++ " (confidence: " ++ fmt1 card.confidence ++ ")"))
  "\nQuestion: " ++ question ++ "\n\nCitations:\n" ++ citation_map ++
  "\n\nEvidence:\n" ++ evidence_text ++
  "\n\nGenerate exactly 3 bullet points that answer the question:\n• Each bullet ≤25 words\n• End each with [1], [2], etc. \n• After bullets, add 'DONE'\n\nFormat:\n• Insight 1 about consensus algorithms [1]\n• Insight 2 about performance requirements [2] \n• Insight 3 about implementation considerations [3]\nDONE\n"

/-- The bullet lines of a backend response, as counted by the validation in
`synthesize_async`: the lines of the stripped response starting with the
bullet marker. -/
def bullet_lines (result : String) : List String :=
  (splitNl (pyStrip result)).filter (fun line => strStarts line "• ")

/-- The format validation of `synthesize_async`: exactly 3 bullet lines and
the stripped response ends with the terminator token. -/
def synth_valid (result : String) : Bool :=
  (bullet_lines result).length == 3 && strEnds (pyStrip result) "DONE"

/-- `Synthesizer._fallback_synthesis`: the deterministic fallback report;
citation references past the number of available citations degrade to
`[1]`. -/
def fallback_synthesis (citations : List String) : String :=
  let ref1 := if citations.length > 0 then "[1]" else "[1]"
  let ref2 := if citations.length > 1 then "[2]" else "[1]"
  let ref3 := if citations.length > 2 then "[3]" else "[1]"
  "• Raft simpler but PBFT required for Byzantine fault tolerance in adversarial environments " ++ ref1 ++
  "\n• Sub-100ms latency achievable through optimized network topology and message batching techniques " ++ ref2 ++
  "\n• Performance testing essential to validate consensus overhead under multi-agent coordination load " ++ ref3 ++
  "\nDONE"

/-- `Synthesizer.synthesize_async`: ask the backend for the report and
return it if it passes validation, otherwise (or on a runtime fault inside
the `try` block) return the deterministic fallback. -/
def synthesize_async (env : Env) (question : String) (evidence : List EvidenceCard)
    (citations : List String) (w : World) : World × String :=
  match env.synthFault with
  | some e => (w.logError "synthesis" e, fallback_synthesis citations)
  | none =>
    let r := llm_call_async env "Synthesizer"
              (synth_prompt question evidence citations) (1/10) 3 w
    if synth_valid r.2 then (r.1, r.2) else (r.1, fallback_synthesis citations)

-- =========================
-- Main OODA Loop
-- =========================

/-- The fixed report substituted by the `except` branch of `ooda_run`
(note: a different template from `fallback_synthesis`). -/
def ooda_fallback_report : String :=
  "• Technical analysis required for distributed consensus algorithm comparison [1]\n• Performance benchmarking needed for sub-100ms latency validation in trading systems [2]  \n• Security assessment essential for Byzantine fault tolerance in multi-agent coordination [3]\nDONE"

/-- `ooda_run`: the four-stage orchestration.  A runtime fault during
ORIENT/DECIDE/ACT (after the stages preceding it ran) is caught by the
`except` branch, which logs the error and substitutes the fixed fallback
report.  The displaying of metrics and report after the `try`/`except` is
output only; the function returns the draft report. -/
def ooda_run (env : Env) (question : String) (w : World) : World × String :=
  let w0 := w.logEvent "🎯 OBSERVE: Question received and analyzed"
  let w1 := w0.logEvent "🧭 ORIENT: Strategic planning and decomposition"
  match env.oodaFault with
  | some (.orient, e) => (w1.logError "ooda_main" e, ooda_fallback_report)
  | _ =>
    let plan := plan_async question
    let w2 := w1.logEvent "🤔 DECIDE: Evidence gathering and expert consultation"
    match env.oodaFault with
    | some (.decide, e) => (w2.logError "ooda_main" e, ooda_fallback_report)
    | _ =>
      let r := consult_professors env plan.subqs w2
      let w3 := r.1.logEvent "⚡ ACT: Synthesis and quality validation"
      match env.oodaFault with
      | some (.act, e) => (w3.logError "ooda_main" e, ooda_fallback_report)
      | _ =>
        let s := synthesize_async env question r.2.1 r.2.2 w3
        (s.1.logEvent "✅ OODA cycle completed successfully", s.2)

/-- The citations accumulated by a fault-free run of `ooda_run` on
`question` from world `w` (the second component of the DECIDE stage,
computed along the same path as `ooda_run`). -/
def ooda_citations (env : Env) (question : String) (w : World) : List String :=
  let w1 := ((w.logEvent "🎯 OBSERVE: Question received and analyzed").logEvent
    "🧭 ORIENT: Strategic planning and decomposition").logEvent
    "🤔 DECIDE: Evidence gathering and expert consultation"
  (consult_professors env (plan_async question).subqs w1).2.2

-- =========================
-- Generic lemmas about the stable descending sort
-- =========================

/-- The ordering guaranteed by a stable descending sort by key `s` of a
list whose original order satisfies `R`: later elements have strictly
smaller keys, or equal keys and come later in the original order. -/
def lexQ (s : α → Nat) (R : α → α → Prop) (a b : α) : Prop :=
  s b < s a ∨ (s a = s b ∧ R a b)

theorem insertDesc_perm (s : α → Nat) (x : α) (l : List α) :
    List.Perm (insertDesc s x l) (x :: l) := by
  induction l with
  | nil => exact List.Perm.refl _
  | cons y ys ih =>
    simp only [insertDesc]
    split
    · exact (ih.cons y).trans (List.Perm.swap x y ys)
    · exact List.Perm.refl _

theorem sortDesc_perm (s : α → Nat) (l : List α) : List.Perm (sortDesc s l) l := by
  induction l with
  | nil => exact List.Perm.refl _
  | cons x xs ih => exact (insertDesc_perm s x (sortDesc s xs)).trans (ih.cons x)

theorem mem_sortDesc {s : α → Nat} {l : List α} {a : α} :
    a ∈ sortDesc s l ↔ a ∈ l :=
  (sortDesc_perm s l).mem_iff

theorem length_sortDesc (s : α → Nat) (l : List α) :
    (sortDesc s l).length = l.length :=
  (sortDesc_perm s l).length_eq

theorem insertDesc_pairwise {s : α → Nat} {R : α → α → Prop} {x : α} {l : List α}
    (hx : ∀ y ∈ l, R x y) (hl : l.Pairwise (lexQ s R)) :
    (insertDesc s x l).Pairwise (lexQ s R) := by
  induction l with
  | nil => simp [insertDesc, lexQ]
  | cons y ys ih =>
    rcases List.pairwise_cons.1 hl with ⟨hy, hys⟩
    simp only [insertDesc]
    split
    · rename_i hlt
      refine List.pairwise_cons.2 ⟨?_, ih (fun z hz => hx z (List.mem_cons_of_mem y hz)) hys⟩
      intro z hz
      rcases List.mem_cons.1 ((insertDesc_perm s x ys).mem_iff.1 hz) with h | h
      · subst h; exact Or.inl hlt
      · exact hy z h
    · rename_i hge
      refine List.pairwise_cons.2 ⟨?_, hl⟩
      intro z hz
      rcases List.mem_cons.1 hz with h | h
      · subst h
        rcases Nat.lt_or_ge (s z) (s x) with h1 | h1
        · exact Or.inl h1
        · exact Or.inr ⟨by omega, hx z (List.mem_cons_self z ys)⟩
      · have hzy : s z ≤ s y := by rcases hy z h with h2 | h2 <;> omega
        rcases Nat.lt_or_ge (s z) (s x) with h1 | h1
        · exact Or.inl h1
        · exact Or.inr ⟨by omega, hx z (List.mem_cons_of_mem y h)⟩

theorem sortDesc_pairwise {s : α → Nat} {R : α → α → Prop} {l : List α}
    (hl : l.Pairwise R) : (sortDesc s l).Pairwise (lexQ s R) := by
  induction l with
  | nil => simp [sortDesc]
  | cons x xs ih =>
    rcases List.pairwise_cons.1 hl with ⟨hx, hxs⟩
    exact insertDesc_pairwise (fun y hy => hx y ((sortDesc_perm s xs).mem_iff.1 hy)) (ih hxs)

-- =========================
-- Supporting lemmas
-- =========================

/-- The trigger condition of the planner: one of the fixed trigger terms
occurs as a case-insensitive substring of the question. -/
def planTrigger (question : String) : Bool :=
  strContains (pyLower question) "consensus" || strContains (pyLower question) "raft" ||
  strContains (pyLower question) "pbft"

theorem clampConf_bounds (c : ℚ) : 0 ≤ clampConf c ∧ clampConf c ≤ 1 := by
  constructor
  · exact le_max_left 0 _
  · exact max_le (by norm_num) (min_le_left 1 c)

theorem make_confidence (claim : String) (c : ℚ) (cits : List Int)
    (rat prof : String) :
    (EvidenceCard.make claim c cits rat prof).confidence = clampConf c := rfl

theorem llm_attempts_frame (env : Env) (role prompt : String) (mr : Nat) :
    ∀ attempts w,
      (llm_attempts env role prompt mr attempts w).1.metrics.llm_tokens_in =
        w.metrics.llm_tokens_in ∧
      w.metrics.error_count ≤
        (llm_attempts env role prompt mr attempts w).1.metrics.error_count := by
  intro attempts
  induction attempts with
  | nil => intro w; simp [llm_attempts]
  | cons attempt rest ih =>
    intro w
    rw [llm_attempts]
    cases hb : env.backend w.tick prompt with
    | ok raw => simp
    | error e =>
      simp only []
      split
      · simp [World.logError, Metrics.log_error, Metrics.log_event]
      · have := ih ({ w.logError ("LLM attempt " ++ toString (attempt + 1)) e with
                        tick := w.tick + 1 })
        refine ⟨?_, ?_⟩
        · rw [this.1]; simp [World.logError, Metrics.log_error, Metrics.log_event]
        · refine Nat.le_trans ?_ this.2
          simp [World.logError, Metrics.log_error, Metrics.log_event]

theorem llm_call_error_mono (env : Env) (role content : String) (t : ℚ)
    (mr : Nat) (w : World) :
    w.metrics.error_count ≤ (llm_call_async env role content t mr w).1.metrics.error_count := by
  unfold llm_call_async
  split
  · simp
  · refine Nat.le_trans ?_ ((llm_attempts_frame env role (llm_prompt role content) mr
      (List.range mr)
      { w with metrics := { w.metrics with
          llm_tokens_in := w.metrics.llm_tokens_in + estimate_tokens (llm_prompt role content) } }).2)
    simp

theorem analyze_error_mono (env : Env) (prof : Professor) (question : String)
    (snippets : List String) (w : World) :
    w.metrics.error_count ≤ (analyze_async env prof question snippets w).1.metrics.error_count := by
  unfold analyze_async
  cases env.analyzeFault w.tick with
  | some e => simp [World.logError, Metrics.log_error, Metrics.log_event]
  | none => simpa using llm_call_error_mono env prof.name _ (2/10) 3 w

theorem analyzeAll_error_mono (env : Env) (subq : String) (snippets : List String) :
    ∀ ps (w : World),
      w.metrics.error_count ≤ (analyzeAll env subq snippets ps w).1.metrics.error_count := by
  intro ps
  induction ps with
  | nil => intro w; simp [analyzeAll]
  | cons p ps ih =>
    intro w
    simp only [analyzeAll]
    exact Nat.le_trans (analyze_error_mono env p subq snippets w) (ih _)

theorem gather_error_eq (subq : String) (w : World) :
    (gather_evidence subq w).1.metrics.error_count = w.metrics.error_count := by
  simp [gather_evidence, World.logEvent, Metrics.log_event]

theorem consultLoop_error_mono (env : Env) :
    ∀ subqs i ev cits (w : World),
      w.metrics.error_count ≤ (consultLoop env subqs i ev cits w).1.metrics.error_count := by
  intro subqs
  induction subqs with
  | nil => intro i ev cits w; simp [consultLoop]
  | cons subq rest ih =>
    intro i ev cits w
    simp only [consultLoop]
    refine Nat.le_trans ?_ (ih _ _ _ _)
    refine Nat.le_trans ?_ (analyzeAll_error_mono env subq _ _ _)
    rw [gather_error_eq]
    simp [World.logEvent, Metrics.log_event]

-- =========================
-- Claim theorems
-- =========================

/-- C10: when the `requests` library is unavailable, `llm_call_async`
returns its deterministic mock string immediately and leaves every field of
the process-wide metrics unchanged (the whole world is returned as-is: no
token estimate, no error count, no event), whereas with a configured
backend the input-token estimate is incremented by the prompt's word count
before the first attempt, for every backend behaviour. -/
theorem llm_call_no_backend_frame :
    (∀ (env : Env) (role content : String) (t : ℚ) (mr : Nat) (w : World),
      env.requestsAvailable = false →
      llm_call_async env role content t mr w =
        (w, "Mock response from " ++ role ++ ": Technical analysis needed based on provided context.")) ∧
    (∀ (env : Env) (role content : String) (t : ℚ) (mr : Nat) (w : World),
      env.requestsAvailable = true →
      (llm_call_async env role content t mr w).1.metrics.llm_tokens_in =
        w.metrics.llm_tokens_in + estimate_tokens (llm_prompt role content)) := by
  constructor
  · intro env role content t mr w h
    unfold llm_call_async
    simp [h]
  · intro env role content t mr w h
    unfold llm_call_async
    simp only [h, Bool.not_true, Bool.false_eq_true, if_false]
    rw [(llm_attempts_frame env role (llm_prompt role content) mr (List.range mr) _).1]

/-- Witness for C10 at a concrete environment, role and world. -/
theorem llm_call_no_backend_frame_witness :
    llm_call_async ⟨false, fun _ _ => .error "down", fun _ => none, fun _ => none, none, none⟩
        "Planner" "ctx" (3/10) 3 World.init =
      (World.init, "Mock response from Planner: Technical analysis needed based on provided context.") ∧
    (llm_call_async ⟨true, fun _ _ => .error "down", fun _ => none, fun _ => none, none, none⟩
        "Planner" "ctx" (3/10) 3 World.init).1.metrics.llm_tokens_in =
      World.init.metrics.llm_tokens_in + estimate_tokens (llm_prompt "Planner" "ctx") := by
  constructor
  · exact llm_call_no_backend_frame.1 _ "Planner" "ctx" (3/10) 3 World.init rfl
  · exact llm_call_no_backend_frame.2 _ "Planner" "ctx" (3/10) 3 World.init rfl

/-- C2: when every backend attempt fails, `llm_call_async` with
`max_retries = 3` returns (rather than raises — the embedding is a total
function) the deterministic fallback string, which contains the invoking
role's label, and logs exactly 3 error events: the error counter and the
event log each grow by exactly 3, one per failed attempt including the
final one. -/
theorem llm_call_retry_exhaustion (env : Env) (role content : String) (t : ℚ)
    (w : World) (hreq : env.requestsAvailable = true)
    (hfail : ∀ n p, ∃ e, env.backend n p = .error e) :
    (llm_call_async env role content t 3 w).2 =
      "Fallback response from " ++ role ++ ": Analysis required for given context." ∧
    (llm_call_async env role content t 3 w).1.metrics.error_count =
      w.metrics.error_count + 3 ∧
    (llm_call_async env role content t 3 w).1.metrics.events.length =
      w.metrics.events.length + 3 ∧
    role.toList <:+: (llm_call_async env role content t 3 w).2.toList := by
  obtain ⟨e0, h0⟩ := hfail w.tick (llm_prompt role content)
  obtain ⟨e1, h1⟩ := hfail (w.tick + 1) (llm_prompt role content)
  obtain ⟨e2, h2⟩ := hfail (w.tick + 2) (llm_prompt role content)
  have hcall : llm_call_async env role content t 3 w =
      llm_attempts env role (llm_prompt role content) 3 [0, 1, 2]
        { w with metrics := { w.metrics with
            llm_tokens_in := w.metrics.llm_tokens_in + estimate_tokens (llm_prompt role content) } } := by
    unfold llm_call_async
    simp only [hreq, Bool.not_true, Bool.false_eq_true, if_false]
    rfl
  rw [hcall]
  rw [llm_attempts]
  rw [h0]
  simp only [Nat.reduceEqDiff, if_false]
  rw [llm_attempts]
  rw [h1]
  simp only [Nat.reduceEqDiff, if_false]
  rw [llm_attempts]
  rw [h2]
  simp only [World.logError, Metrics.log_error, Metrics.log_event]
  refine ⟨rfl, by simp, by simp, ?_⟩
  exact ⟨"Fallback response from ".toList,
    ": Analysis required for given context.".toList, by simp⟩

/-- Witness for C2: a concrete always-failing backend. -/
theorem llm_call_retry_exhaustion_witness :
    (llm_call_async ⟨true, fun _ _ => .error "boom", fun _ => none, fun _ => none, none, none⟩
        "Prof. Systems" "q" (3/10) 3 World.init).2 =
      "Fallback response from Prof. Systems: Analysis required for given context." ∧
    (llm_call_async ⟨true, fun _ _ => .error "boom", fun _ => none, fun _ => none, none, none⟩
        "Prof. Systems" "q" (3/10) 3 World.init).1.metrics.error_count =
      World.init.metrics.error_count + 3 ∧
    (llm_call_async ⟨true, fun _ _ => .error "boom", fun _ => none, fun _ => none, none, none⟩
        "Prof. Systems" "q" (3/10) 3 World.init).1.metrics.events.length =
      World.init.metrics.events.length + 3 ∧
    "Prof. Systems".toList <:+:
      (llm_call_async ⟨true, fun _ _ => .error "boom", fun _ => none, fun _ => none, none, none⟩
        "Prof. Systems" "q" (3/10) 3 World.init).2.toList := by
  exact llm_call_retry_exhaustion _ "Prof. Systems" "q" (3/10) World.init rfl
    (fun n p => ⟨"boom", rfl⟩)

/-- C7: for every input question the plan has at most 3 sub-questions; any
question containing "consensus", "raft" or "pbft" as a case-insensitive
substring yields the same fixed 3-sub-question decomposition regardless of
surrounding text, and any other question yields the single-element plan
containing the original question. -/
theorem plan_async_spec (question : String) :
    (plan_async question).subqs.length ≤ 3 ∧
    (planTrigger question = true →
      (plan_async question).subqs =
        ["Compare Raft and PBFT consensus algorithms",
         "Analyze latency requirements for financial trading systems",
         "Evaluate Byzantine fault tolerance for multi-agent coordination"]) ∧
    (planTrigger question = false → (plan_async question).subqs = [question]) := by
  unfold plan_async planTrigger
  dsimp only
  split <;> rename_i h <;> simp_all
  all_goals (intro h1 h2; simp_all)

/-- Witness for C7: a trigger question (with surrounding text) and a
non-trigger question. -/
theorem plan_async_spec_witness :
    (plan_async "Should we use PBFT here?").subqs =
      ["Compare Raft and PBFT consensus algorithms",
       "Analyze latency requirements for financial trading systems",
       "Evaluate Byzantine fault tolerance for multi-agent coordination"] ∧
    (plan_async "hello there").subqs = ["hello there"] := by
  exact ⟨(plan_async_spec "Should we use PBFT here?").2.1 (by decide),
         (plan_async_spec "hello there").2.2 (by decide)⟩

/-- C8: for every (rational-valued) confidence input, the confidence stored
in a newly constructed evidence card lies in `[0,1]`; the clamp maps
`-0.3` to `0.0` and `1.7` to `1.0`; the clamp happens exactly once, at
creation (`make` stores `clampConf` of the input and the embedding's cards
are immutable — in particular every card produced by `analyze_async` still
carries an in-range confidence). -/
theorem evidence_card_confidence_spec :
    (∀ (claim : String) (c : ℚ) (cits : List Int) (rat prof : String),
      0 ≤ (EvidenceCard.make claim c cits rat prof).confidence ∧
      (EvidenceCard.make claim c cits rat prof).confidence ≤ 1 ∧
      (EvidenceCard.make claim c cits rat prof).confidence = clampConf c) ∧
    clampConf (-(3/10)) = 0 ∧ clampConf (17/10) = 1 ∧
    (∀ (env : Env) (prof : Professor) (question : String) (snippets : List String)
      (w : World), ∀ card ∈ (analyze_async env prof question snippets w).2,
        0 ≤ card.confidence ∧ card.confidence ≤ 1) := by
  refine ⟨?_, ?_, ?_, ?_⟩
  · intro claim c cits rat prof
    exact ⟨(clampConf_bounds c).1, (clampConf_bounds c).2, rfl⟩
  · unfold clampConf
    norm_num
  · unfold clampConf
    norm_num
  · intro env prof question snippets w card hcard
    unfold analyze_async at hcard
    cases hfault : env.analyzeFault w.tick with
    | none =>
      rw [hfault] at hcard
      dsimp only at hcard
      split at hcard <;> split at hcard <;>
        first
          | (simp only [List.mem_singleton] at hcard; subst hcard; exact clampConf_bounds _)
          | (rcases List.mem_map.1 hcard with ⟨cd, _, heq⟩; subst heq; exact clampConf_bounds _)
    | some e =>
      rw [hfault] at hcard
      simp only [List.mem_singleton] at hcard
      subst hcard
      exact clampConf_bounds _

/-- Witness for C8 at a concrete card and a concrete `analyze_async` run. -/
theorem evidence_card_confidence_spec_witness :
    (0 ≤ (EvidenceCard.make "c" (17/10) [1] "r" "p").confidence ∧
      (EvidenceCard.make "c" (17/10) [1] "r" "p").confidence ≤ 1 ∧
      (EvidenceCard.make "c" (17/10) [1] "r" "p").confidence = clampConf (17/10)) ∧
    (∀ card ∈ (analyze_async
        ⟨false, fun _ _ => .error "down", fun _ => none, fun _ => none, none, none⟩
        ProfAlgorithms "q" [] World.init).2,
      0 ≤ card.confidence ∧ card.confidence ≤ 1) := by
  exact ⟨evidence_card_confidence_spec.1 "c" (17/10) [1] "r" "p",
    evidence_card_confidence_spec.2.2.2 _ ProfAlgorithms "q" [] World.init⟩

/-- The position of a result title in the fixed corpus. -/
def corpusIdx (t : String) : Nat :=
  if t = "raft_consensus" then 0
  else if t = "pbft_consensus" then 1
  else if t = "trading_systems" then 2
  else 3

theorem kbCandidates_score {q : String} {r : SearchResult}
    (h : r ∈ kbCandidates q) : 1 ≤ r.score := by
  rcases List.mem_filterMap.1 h with ⟨item, _, heq⟩
  dsimp only at heq
  split at heq
  · rename_i hpos
    injection heq with h2
    subst h2
    exact hpos
  · exact absurd heq (by simp)

theorem kbCandidates_pairwise (q : String) :
    (kbCandidates q).Pairwise (fun a b => corpusIdx a.title < corpusIdx b.title) := by
  unfold kbCandidates
  rw [List.pairwise_filterMap]
  unfold kb
  refine List.Pairwise.cons ?_ (List.Pairwise.cons ?_ (List.pairwise_singleton _ _)) <;>
  · intro e he b hb b' hb'
    dsimp only at hb hb'
    split at hb <;> split at hb' <;>
      simp_all [corpusIdx] <;>
      (try rcases he with rfl | rfl) <;> subst_vars <;>
      simp [corpusIdx]

/-- C5: for every query, `search_kb` returns at most 3 results, every
returned result has score at least 1 (zero-overlap entries are excluded),
and results are ordered by strictly descending score with ties broken by
original corpus order (the `lexQ` ordering on score and corpus position). -/
theorem search_kb_spec (q : String) :
    (search_kb q).length ≤ 3 ∧
    (∀ r ∈ search_kb q, 1 ≤ r.score) ∧
    (search_kb q).Pairwise
      (lexQ SearchResult.score (fun a b => corpusIdx a.title < corpusIdx b.title)) := by
  refine ⟨?_, ?_, ?_⟩
  · unfold search_kb
    exact List.length_take_le 3 _
  · intro r hr
    exact kbCandidates_score (mem_sortDesc.1 (List.mem_of_mem_take hr))
  · exact List.Pairwise.sublist (List.take_sublist 3 _)
      (sortDesc_pairwise (kbCandidates_pairwise q))

set_option maxRecDepth 4000 in
/-- Witness for C5: the query "raft" returns a nonempty result list whose
head the theorem applies to. -/
theorem search_kb_spec_witness :
    1 ≤ ((search_kb "raft").headD ⟨"", "", "", 0⟩).score :=
  (search_kb_spec "raft").2.1 _ (by decide)

set_option maxRecDepth 8000 in
/-- C4 (counterexample): on the query "Byzantine fault trading" all three
corpus entries tie at score 2, so the stable sort keeps corpus order and
`raft_consensus` is ranked first — `pbft_consensus` and `trading_systems`
are NOT ranked above it (their positions are not smaller). -/
theorem search_kb_byzantine_cex :
    ((search_kb "Byzantine fault trading").map (fun r => r.title)).indexOf "pbft_consensus" >
      ((search_kb "Byzantine fault trading").map (fun r => r.title)).indexOf "raft_consensus" ∧
    ((search_kb "Byzantine fault trading").map (fun r => r.title)).indexOf "trading_systems" >
      ((search_kb "Byzantine fault trading").map (fun r => r.title)).indexOf "raft_consensus" := by
  decide

set_option maxRecDepth 8000 in
/-- C4 (amended): `search_kb` on "Byzantine fault trading" returns all
three entries — the Byzantine-fault entry and the trading entry are
surfaced — but every entry scores exactly 2 ("fault" matches only the
token "fault", not "faults"), so the tie is broken by corpus order and the
ranking is raft_consensus, pbft_consensus, trading_systems. -/
theorem search_kb_byzantine_spec :
    (search_kb "Byzantine fault trading").map (fun r => (r.title, r.score)) =
      [("raft_consensus", 2), ("pbft_consensus", 2), ("trading_systems", 2)] := by
  decide

/-- The declaration position of a professor name in `Advisor.professors`. -/
def declIdx (n : String) : Nat :=
  if n = "Prof. Algorithms" then 0
  else if n = "Prof. Systems" then 1
  else if n = "Prof. Security" then 2
  else if n = "Prof. Finance" then 3
  else 4

theorem profScores_pairwise (subq : String) :
    (profScores subq).Pairwise (fun a b => declIdx a.1 < declIdx b.1) := by
  unfold profScores professors ProfAlgorithms ProfSystems ProfSecurity ProfFinance
  rw [List.pairwise_filterMap]
  refine List.Pairwise.cons ?_ (List.Pairwise.cons ?_
    (List.Pairwise.cons ?_ (List.pairwise_singleton _ _))) <;>
  · intro e he b hb b' hb'
    dsimp only at hb hb'
    split at hb <;> split at hb' <;>
      simp_all [declIdx] <;>
      (try rcases he with rfl | rfl | rfl) <;>
      subst_vars <;> simp [declIdx]

theorem profScores_pos {subq : String} {pr : String × Nat}
    (h : pr ∈ profScores subq) : 0 < pr.2 := by
  rcases List.mem_filterMap.1 h with ⟨p, _, heq⟩
  dsimp only at heq
  split at heq
  · rename_i hpos
    injection heq with h2
    subst h2
    exact hpos
  · exact absurd heq (by simp)

/-- C6: for every sub-question, `route_professors` is total and
deterministic (a Lean function) and returns 1 or 2 role names, never more:
when every professor scores 0 (no expertise keyword is a case-insensitive
substring), the fixed default pair is returned; otherwise the result is
the top-2 name projection of the stable descending sort of the
positive-score table, which is a permutation of the declaration-ordered
score table, ordered by strictly descending score with ties broken by
declaration order, and containing only positive scores. -/
theorem route_professors_spec (subq : String) :
    (1 ≤ (route_professors subq).length ∧ (route_professors subq).length ≤ 2) ∧
    (profScores subq = [] → route_professors subq = ["Prof. Algorithms", "Prof. Systems"]) ∧
    (profScores subq ≠ [] →
      route_professors subq = ((sortDesc Prod.snd (profScores subq)).take 2).map Prod.fst ∧
      List.Perm (sortDesc Prod.snd (profScores subq)) (profScores subq) ∧
      (sortDesc Prod.snd (profScores subq)).Pairwise
        (lexQ Prod.snd (fun a b => declIdx a.1 < declIdx b.1)) ∧
      (∀ pr ∈ profScores subq, 0 < pr.2)) := by
  refine ⟨?_, ?_, ?_⟩
  · unfold route_professors
    rcases h : profScores subq with _ | ⟨p, rest⟩
    · simp [sortDesc, insertDesc]
    · simp only [h, List.isEmpty_cons, if_false, Bool.false_eq_true]
      rw [List.length_map, List.length_take, length_sortDesc]
      simp
  · intro h
    unfold route_professors
    simp only [h, List.isEmpty_nil, if_true]
    simp [sortDesc, insertDesc]
  · intro h
    have hne : (profScores subq).isEmpty = false := by
      rcases hs : profScores subq with _ | _
      · exact absurd hs h
      · simp
    refine ⟨?_, sortDesc_perm _ _, sortDesc_pairwise (profScores_pairwise subq),
      fun pr hpr => profScores_pos hpr⟩
    unfold route_professors
    simp [hne]

/-- Witness for C6: a sub-question on which every professor scores zero,
so the router returns the fixed default pair. -/
theorem route_professors_spec_witness :
    route_professors "hello" = ["Prof. Algorithms", "Prof. Systems"] :=
  (route_professors_spec "hello").2.1 (by decide)

theorem fallback_synthesis_congr {cs cs' : List String}
    (h : cs.length = cs'.length) : fallback_synthesis cs = fallback_synthesis cs' := by
  unfold fallback_synthesis
  rw [h]

theorem fallback_synthesis_three {cs : List String} (h : 3 ≤ cs.length) :
    fallback_synthesis cs = fallback_synthesis ["", "", ""] := by
  unfold fallback_synthesis
  rw [if_pos (by omega), if_pos (by omega), if_pos (by omega)]
  rfl

/-- C3: for every citations list, including the empty one, the Synthesizer
fallback contains exactly 3 lines beginning with the bullet marker and its
trimmed text ends with the terminator "DONE"; citation references past the
number of available citations degrade to `[1]` (all three references for
at most 1 citation, the third for exactly 2, and `[1][2][3]` from 3 on);
and this fallback is what `synthesize_async` returns whenever the backend
response fails validation (not exactly 3 bullet lines, or trimmed response
not ending with the terminator) or the synthesis stage raises. -/
theorem synthesizer_fallback_contract :
    (∀ cs : List String,
      (bullet_lines (fallback_synthesis cs)).length = 3 ∧
      strEnds (pyStrip (fallback_synthesis cs)) "DONE" = true ∧
      (cs.length ≤ 1 → collectRefs (fallback_synthesis cs).toList = [1, 1, 1]) ∧
      (cs.length = 2 → collectRefs (fallback_synthesis cs).toList = [1, 2, 1]) ∧
      (3 ≤ cs.length → collectRefs (fallback_synthesis cs).toList = [1, 2, 3])) ∧
    (∀ (env : Env) (question : String) (evidence : List EvidenceCard)
        (cs : List String) (w : World),
      env.synthFault = none →
      synth_valid (llm_call_async env "Synthesizer"
        (synth_prompt question evidence cs) (1/10) 3 w).2 = false →
      (synthesize_async env question evidence cs w).2 = fallback_synthesis cs) ∧
    (∀ (env : Env) (question : String) (evidence : List EvidenceCard)
        (cs : List String) (w : World) (e : String),
      env.synthFault = some e →
      (synthesize_async env question evidence cs w).2 = fallback_synthesis cs) := by
  refine ⟨?_, ?_, ?_⟩
  · intro cs
    match cs with
    | [] =>
      exact ⟨by decide, by decide, fun _ => by decide,
        fun h => by simp only [List.length_nil] at h; omega,
        fun h => by simp only [List.length_nil] at h; omega⟩
    | [a] =>
      rw [@fallback_synthesis_congr [a] [""] rfl]
      exact ⟨by decide, by decide, fun _ => by decide,
        fun h => by simp only [List.length_cons, List.length_nil] at h; omega,
        fun h => by simp only [List.length_cons, List.length_nil] at h; omega⟩
    | [a, b] =>
      rw [@fallback_synthesis_congr [a, b] ["", ""] rfl]
      exact ⟨by decide, by decide,
        fun h => by simp only [List.length_cons, List.length_nil] at h; omega,
        fun _ => by decide,
        fun h => by simp only [List.length_cons, List.length_nil] at h; omega⟩
    | a :: b :: c :: t =>
      have h3 : 3 ≤ (a :: b :: c :: t).length := by simp
      rw [fallback_synthesis_three h3]
      refine ⟨by decide, by decide, fun h => ?_, fun h => ?_, fun _ => by decide⟩
      · simp only [List.length_cons] at h; omega
      · simp only [List.length_cons] at h; omega
  · intro env question evidence cs w hfault hvalid
    unfold synthesize_async
    rw [hfault]
    dsimp only
    rw [hvalid]
    simp
  · intro env question evidence cs w e hfault
    unfold synthesize_async
    rw [hfault]

/-- Witness for C3: with no backend configured, the mock response fails
validation and the fallback is returned for the empty citations list. -/
theorem synthesizer_fallback_contract_witness :
    (synthesize_async ⟨false, fun _ _ => .error "down", fun _ => none, fun _ => none, none, none⟩
      "q" [] [] World.init).2 = fallback_synthesis [] :=
  synthesizer_fallback_contract.2.1 _ "q" [] [] World.init rfl (by decide)

theorem consult_error_mono (env : Env) (subqs : List String) (w : World) :
    w.metrics.error_count ≤ (consult_professors env subqs w).1.metrics.error_count :=
  consultLoop_error_mono env subqs 0 [] [] w

/-- A concrete environment for C1: the runtime raises during the ORIENT
stage. -/
def cexFaultEnv : Env :=
  ⟨true, fun _ _ => .error "io failure", fun _ => none, fun _ => none, none,
   some (.orient, "io failure")⟩

/-- C1 (counterexample): in a run whose ORIENT stage raises, the report
substituted at the orchestrator boundary is the orchestrator's own fixed
template, which differs from the Synthesizer's deterministic fallback at
the run's accumulated citations (none) — and indeed from the Synthesizer
fallback for every possible citation count. -/
theorem ooda_exception_report_cex :
    (ooda_run cexFaultEnv "Compare Raft and PBFT" World.init).2 = ooda_fallback_report ∧
    ooda_fallback_report ≠ fallback_synthesis [] ∧
    ooda_fallback_report ≠ fallback_synthesis ["a"] ∧
    ooda_fallback_report ≠ fallback_synthesis ["a", "b"] ∧
    ooda_fallback_report ≠ fallback_synthesis ["a", "b", "c"] := by
  refine ⟨rfl, ?_, ?_, ?_, ?_⟩
  · decide
  · rw [@fallback_synthesis_congr ["a"] [""] rfl]; decide
  · rw [@fallback_synthesis_congr ["a", "b"] ["", ""] rfl]; decide
  · rw [fallback_synthesis_three (by simp)]; decide

/-- C1 (amended): any exception raised during the ORIENT, DECIDE or ACT
stage is caught at the orchestrator boundary and counted in the metrics
error counter, and the report is replaced by the orchestrator's fixed
deterministic fallback report — a different template from the one used by
the Synthesizer; `ooda_run` never propagates the fault to its caller (it
is a total function returning the fallback report). -/
theorem ooda_exception_boundary (env : Env) (question : String) (w : World)
    (stage : OodaStage) (e : String) (h : env.oodaFault = some (stage, e)) :
    (ooda_run env question w).2 = ooda_fallback_report ∧
    w.metrics.error_count < (ooda_run env question w).1.metrics.error_count := by
  cases stage <;> unfold ooda_run <;> rw [h] <;> dsimp only
  · exact ⟨rfl, by simp [World.logError, World.logEvent, Metrics.log_error, Metrics.log_event]⟩
  · exact ⟨rfl, by simp [World.logError, World.logEvent, Metrics.log_error, Metrics.log_event]⟩
  · refine ⟨rfl, ?_⟩
    have h1 := consult_error_mono env (plan_async question).subqs
      (((w.logEvent "🎯 OBSERVE: Question received and analyzed").logEvent
        "🧭 ORIENT: Strategic planning and decomposition").logEvent
        "🤔 DECIDE: Evidence gathering and expert consultation")
    simp only [World.logError, World.logEvent, Metrics.log_error, Metrics.log_event] at h1 ⊢
    omega

/-- Witness for C1 (amended) at the concrete faulting environment. -/
theorem ooda_exception_boundary_witness :
    (ooda_run cexFaultEnv "q" World.init).2 = ooda_fallback_report ∧
    World.init.metrics.error_count <
      (ooda_run cexFaultEnv "q" World.init).1.metrics.error_count :=
  ooda_exception_boundary cexFaultEnv "q" World.init .orient "io failure" rfl

theorem dedup_foldl_mono (l : List String) :
    ∀ acc : List String,
      acc.length ≤
        (l.foldl (fun acc c => if acc.contains c then acc else acc ++ [c]) acc).length := by
  induction l with
  | nil => intro acc; simp
  | cons c rest ih =>
    intro acc
    simp only [List.foldl_cons]
    refine Nat.le_trans ?_ (ih _)
    split <;> simp

theorem dedup_foldl_nonempty {l : List String} (h : l ≠ []) :
    1 ≤ (l.foldl (fun acc c => if acc.contains c then acc else acc ++ [c]) []).length := by
  match l with
  | c :: rest =>
    simp only [List.foldl_cons]
    refine Nat.le_trans ?_ (dedup_foldl_mono rest _)
    simp

theorem gather_citations_len (subq : String) (w : World) :
    (gather_evidence subq w).2.2 ≠ [] := by
  unfold gather_evidence mock_web_search
  dsimp only
  intro hc
  have := congrArg List.length hc
  rw [List.length_take] at this
  simp at this

theorem consultLoop_cits_mono (env : Env) :
    ∀ subqs i ev cits (w : World),
      cits.length ≤ (consultLoop env subqs i ev cits w).2.2.length := by
  intro subqs
  induction subqs with
  | nil => intro i ev cits w; simp [consultLoop]
  | cons subq rest ih =>
    intro i ev cits w
    simp only [consultLoop]
    exact Nat.le_trans (dedup_foldl_mono _ cits) (ih _ _ _ _)

theorem consultLoop_cits_nonempty (env : Env) (subq : String) (rest : List String)
    (i : Nat) (ev : List EvidenceCard) (w : World) :
    1 ≤ (consultLoop env (subq :: rest) i ev [] w).2.2.length := by
  simp only [consultLoop]
  refine Nat.le_trans ?_ (consultLoop_cits_mono env rest _ _ _ _)
  exact dedup_foldl_nonempty (gather_citations_len subq _)

theorem ooda_citations_nonempty (env : Env) (question : String) (w : World) :
    1 ≤ (ooda_citations env question w).length := by
  unfold ooda_citations consult_professors
  rcases hp : (plan_async question).subqs with _ | ⟨s, rest⟩
  · exfalso
    unfold plan_async at hp
    dsimp only at hp
    split at hp <;> simp at hp
  · exact consultLoop_cits_nonempty env s rest 0 [] _

theorem fallback_refCount {cs : List String} (h1 : 1 ≤ cs.length) :
    distinctRefCount (fallback_synthesis cs) ≤ cs.length := by
  match cs with
  | [a] =>
    rw [@fallback_synthesis_congr [a] [""] rfl]
    show distinctRefCount (fallback_synthesis [""]) ≤ 1
    decide
  | [a, b] =>
    rw [@fallback_synthesis_congr [a, b] ["", ""] rfl]
    show distinctRefCount (fallback_synthesis ["", ""]) ≤ 2
    decide
  | a :: b :: c :: t =>
    rw [fallback_synthesis_three (by simp)]
    have h2 : distinctRefCount (fallback_synthesis ["", "", ""]) = 3 := by decide
    rw [h2]
    simp only [List.length_cons]
    omega

/-- A concrete environment for C9: the backend always answers with a
format-valid report that references citation indices 4, 5 and 6. -/
def refCexEnv : Env :=
  ⟨true, fun _ _ => .ok "• a [4]\n• b [5]\n• c [6]\nDONE",
   fun _ => none, fun _ => none, none, none⟩

set_option maxRecDepth 20000 in
/-- C9 (counterexample): on the question "hello" with a backend whose
format-valid answer references `[4]`, `[5]` and `[6]`, the run completes
with that answer as the final report: it references 3 distinct citation
indices while the run accumulated only 1 citation (the mock web locator) —
the claimed invariant fails on validated backend output. -/
theorem ooda_citation_invariant_cex :
    (ooda_run refCexEnv "hello" World.init).2 = "• a [4]\n• b [5]\n• c [6]\nDONE" ∧
    distinctRefCount (ooda_run refCexEnv "hello" World.init).2 = 3 ∧
    (ooda_citations refCexEnv "hello" World.init).length = 1 := by
  refine ⟨rfl, ?_, ?_⟩ <;> decide

/-- C9 (amended): every run accumulates at least one citation, and
whenever the final report is the Synthesizer's deterministic fallback
(validation failure or synthesis exception), the number of distinct
citation indices referenced in it never exceeds the number of citations
accumulated; a format-valid backend response, by contrast, is returned
as-is and may reference arbitrary indices (see the counterexample). -/
theorem ooda_citation_invariant_amended :
    (∀ (env : Env) (question : String) (w : World),
      1 ≤ (ooda_citations env question w).length) ∧
    (∀ cs : List String, 1 ≤ cs.length →
      distinctRefCount (fallback_synthesis cs) ≤ cs.length) ∧
    (∀ (env : Env) (question : String) (evidence : List EvidenceCard)
        (cs : List String) (w : World),
      1 ≤ cs.length →
      (synthesize_async env question evidence cs w).2 = fallback_synthesis cs →
      distinctRefCount (synthesize_async env question evidence cs w).2 ≤ cs.length) := by
  refine ⟨ooda_citations_nonempty, fun cs h => fallback_refCount h, ?_⟩
  intro env question evidence cs w h1 hfb
  rw [hfb]
  exact fallback_refCount h1

set_option maxRecDepth 20000 in
/-- Witness for C9 (amended): a concrete fallback-ending synthesis. -/
theorem ooda_citation_invariant_amended_witness :
    1 ≤ (ooda_citations refCexEnv "hello" World.init).length ∧
    distinctRefCount (fallback_synthesis ["c"]) ≤ ("c" :: ([] : List String)).length ∧
    distinctRefCount (synthesize_async
        ⟨false, fun _ _ => .error "down", fun _ => none, fun _ => none, none, none⟩
        "q" [] ["c"] World.init).2 ≤ (("c" : String) :: ([] : List String)).length := by
  refine ⟨ooda_citation_invariant_amended.1 refCexEnv "hello" World.init,
    ooda_citation_invariant_amended.2.1 ["c"] (by decide),
    ooda_citation_invariant_amended.2.2 _ "q" [] ["c"] World.init (by decide) (by decide)⟩
